import Mathlib

/-
  Verification development for the request proxy core of the backend
  (src/unnamed/part_000).

  The proxy core (lines 55-161 of the source) is a single-flight,
  rate-limited, TTL-cached forwarding layer:

    const cache = new Map();                 -- Cache Store
    const CACHE_DURATION = 5 * 60 * 1000;
    const RATE_LIMIT_DELAY = 1000;
    let lastRequestTime = 0;                 -- Rate Governor state
    const queue = [];                        -- Request Queue
    let isProcessingQueue = false;
    const processQueue = async () => ...     -- worker loop, lines 67-129
    const proxyRequest = async (req, res, endpoint) => ...  -- lines 132-155

  JavaScript runs this single-threaded with cooperative scheduling: code
  between two await points is atomic.  The worker's await points are the
  two setTimeout sleeps and the axios.get call; proxyRequest's cache check,
  queue push and the synchronous prefix of processQueue (the re-entrancy
  guard) form one atomic block.  We embed the program as a deterministic
  small-step machine over an explicit state: each step is one such atomic
  block, and incoming requests (arrivals) carry explicit wall-clock times.
  Upstream behaviour is an oracle giving, per axios.get call, its result
  and its duration.  Ties between an arrival and a worker action at the
  same millisecond are resolved in favour of the arrival; all concrete
  scenarios below avoid ties.

  Upstream calls of the /api/watch and /api/episodes handlers (lines
  167-291), which the source issues with direct axios.get calls that never
  touch cache, queue or lastRequestTime, are modelled separately below.
-/

namespace Proxy

/-- Line 59 of the source: CACHE_DURATION = 5 * 60 * 1000 (5 minutes). -/
def CACHE_DURATION : Nat := 5 * 60 * 1000

/-- Line 60 of the source: RATE_LIMIT_DELAY = 1000 (1 second). -/
def RATE_LIMIT_DELAY : Nat := 1000

/-- Result of one upstream axios.get call, as the catch block of
processQueue distinguishes them: a 2xx response carrying a payload
(payloads are opaque to the proxy, modelled as Nat identifiers), an error
with an HTTP response status (error.response.status present), or a
network/timeout error with no response at all. -/
inductive UpstreamResult where
  | success (data : Nat)
  | httpError (status : Nat)
  | netError
deriving DecidableEq

/-- A cache entry, lines 92-95: cache.set(endpoint, { data, timestamp }). -/
structure CacheEntry where
  data : Nat
  timestamp : Nat
deriving DecidableEq

/-- A queue item, line 145: queue.push({ endpoint, res, resolve }).  The
res/resolve pair (the caller's result sink) is identified by the caller id. -/
structure Item where
  endpoint : String
  caller : Nat
deriving DecidableEq

/-- One incoming proxyRequest invocation: its wall-clock time, the endpoint
key, and the caller's identity. -/
structure Arrival where
  time : Nat
  endpoint : String
  caller : Nat
deriving DecidableEq

/-- What a caller's request resolves with: a cached payload (line 140), a
fresh payload (line 104), or an error response with an HTTP status
(lines 120-123). -/
inductive Resp where
  | hit (data : Nat)
  | ok (data : Nat)
  | err (status : Nat)
deriving DecidableEq

/-- An observed upstream call of the program: which endpoint, on behalf of
which caller, its start and completion instants, and its result. -/
structure Ev where
  endpoint : String
  caller : Nat
  start : Nat
  finish : Nat
  result : UpstreamResult
deriving DecidableEq

/-- The machine state: the mutable module-level variables of the source
(cache, queue, lastRequestTime, isProcessingQueue), the wall clock, the
not-yet-arrived requests, the upstream oracle (result and duration of the
i-th axios.get call issued by the worker), the count of worker calls
issued so far, and instrumentation (the log of upstream calls, newest
first, and the responses delivered to callers, newest first). -/
structure St where
  time : Nat
  cache : List (String × CacheEntry)
  queue : List Item
  lastRequestTime : Nat
  isProcessingQueue : Bool
  arrivals : List Arrival
  oracle : Nat → UpstreamResult
  durations : Nat → Nat
  callIdx : Nat
  events : List Ev
  responses : List (Nat × Resp)

/-- Map.get of the cache: first (most recent) binding of the key. -/
def cacheGet : List (String × CacheEntry) → String → Option CacheEntry
  | [], _ => none
  | (k, e) :: rest, key => if k = key then some e else cacheGet rest key

/-- Map.set of the cache (lines 92-95): overwrite-on-write; the newest
binding shadows older ones. -/
def cacheSet (c : List (String × CacheEntry)) (k : String) (d t : Nat) :
    List (String × CacheEntry) :=
  (k, ⟨d, t⟩) :: c

/-- Lines 67-70 of the source, the synchronous prefix of processQueue:
  if (isProcessingQueue || queue.length === 0) return;
  isProcessingQueue = true;
Invoking the worker while a loop instance runs, or with an empty queue,
changes nothing; otherwise the running flag is raised and the loop starts. -/
def processQueueEntry (s : St) : St :=
  if s.isProcessingQueue || s.queue.isEmpty then s
  else { s with isProcessingQueue := true }

/-- Lines 136-147 of the source, the body of proxyRequest for one caller:
  const cached = cache.get(endpoint);
  if (cached && Date.now() - cached.timestamp < CACHE_DURATION)
    return res.json(cached.data);
  queue.push({ endpoint, res, resolve });
  processQueue();
A fresh cache entry answers the caller at once; otherwise the request is
queued at the tail and the worker is triggered through its guard. -/
def handleArrival (a : Arrival) (s : St) : St :=
  match cacheGet s.cache a.endpoint with
  | some e =>
    if a.time - e.timestamp < CACHE_DURATION then
      { s with responses := (a.caller, Resp.hit e.data) :: s.responses }
    else
      processQueueEntry { s with queue := s.queue ++ [⟨a.endpoint, a.caller⟩] }
  | none => processQueueEntry { s with queue := s.queue ++ [⟨a.endpoint, a.caller⟩] }

/-- Deliver every arrival whose time has come (is at most t), in order, and
advance the clock to t.  Arrivals are external events; each one runs the
atomic proxyRequest block of handleArrival at its own wall-clock time. -/
def admitGo (t : Nat) : List Arrival → St → St
  | [], s => { s with time := t, arrivals := [] }
  | a :: rest, s =>
    if a.time ≤ t then admitGo t rest (handleArrival a s)
    else { s with time := t, arrivals := a :: rest }

/-- Advance the clock to t, delivering the arrivals that occur on the way. -/
def admitUpTo (t : Nat) (s : St) : St := admitGo t s.arrivals s

/-- Lines 73-78 of the source, the Rate Governor gate at the top of the
worker loop:
  const timeSinceLastRequest = now - lastRequestTime;
  if (timeSinceLastRequest < RATE_LIMIT_DELAY)
    await setTimeout(RATE_LIMIT_DELAY - timeSinceLastRequest);
The worker sleeps for the returned number of milliseconds. -/
def waitTime (s : St) : Nat :=
  let timeSinceLastRequest := s.time - s.lastRequestTime
  if timeSinceLastRequest < RATE_LIMIT_DELAY then
    RATE_LIMIT_DELAY - timeSinceLastRequest
  else 0

/-- JavaScript status defaulting of line 120,
res.status(error.response?.status || 500): a missing or falsy (0) status
becomes 500. -/
def jsStatus (st : Nat) : Nat := if st = 0 then 500 else st

/-- Lines 91-125 of the source: what the worker does when the upstream call
for the dequeued item completes at instant t2, having started at t1.
On success (lines 91-104): refresh lastRequestTime, write the cache entry,
resolve the caller with the payload.  On a 429 (lines 113-118): unshift the
item back to the head of the queue and sleep one RATE_LIMIT_DELAY before
continuing.  On any other failure (lines 120-124): answer the caller with
the upstream status (500 when absent); no retry, no cache write. -/
def completeCall (item : Item) (t1 t2 : Nat) (r : UpstreamResult) (s : St) : St :=
  let ev : Ev := ⟨item.endpoint, item.caller, t1, t2, r⟩
  match r with
  | .success d =>
    { s with lastRequestTime := t2,
             cache := cacheSet s.cache item.endpoint d t2,
             events := ev :: s.events,
             responses := (item.caller, Resp.ok d) :: s.responses,
             callIdx := s.callIdx + 1 }
  | .httpError st =>
    if st = 429 then
      { s with queue := item :: s.queue,
               time := t2 + RATE_LIMIT_DELAY,
               events := ev :: s.events,
               callIdx := s.callIdx + 1 }
    else
      { s with events := ev :: s.events,
               responses := (item.caller, Resp.err (jsStatus st)) :: s.responses,
               callIdx := s.callIdx + 1 }
  | .netError =>
    { s with events := ev :: s.events,
             responses := (item.caller, Resp.err 500) :: s.responses,
             callIdx := s.callIdx + 1 }

/-- One iteration of the worker's while loop (lines 72-126): consult the
Rate Governor gate, sleep if needed (arrivals during the sleep are
delivered and land at the queue tail), shift the head item, issue its
upstream call (arrivals while the call is in flight are delivered against
the pre-completion cache), then handle the completion. -/
def cycle (s : St) : St :=
  let t1 := s.time + waitTime s
  let s1 := admitUpTo t1 s
  match s1.queue with
  | [] => s1
  | item :: rest =>
    let t2 := t1 + s1.durations s1.callIdx
    let r := s1.oracle s1.callIdx
    let s2 := admitUpTo t2 { s1 with queue := rest }
    completeCall item t1 t2 r s2

/-- One atomic step of the whole program: if the worker loop is running it
either exits (line 128: queue drained, isProcessingQueue = false) or runs
one loop iteration; otherwise the program is idle and the clock jumps to
the next incoming request. -/
def step (s : St) : St :=
  if s.isProcessingQueue then
    if s.queue.isEmpty then { s with isProcessingQueue := false }
    else cycle s
  else
    match s.arrivals with
    | [] => s
    | a :: _ => admitUpTo (max s.time a.time) s

/-- Run the machine for a bounded number of atomic steps. -/
def run : Nat → St → St
  | 0, s => s
  | fuel + 1, s => run fuel (step s)

/-- An execution scenario: the wall clock at process start, the incoming
requests, and the upstream oracle. -/
structure Config where
  startTime : Nat
  arrivals : List Arrival
  oracle : Nat → UpstreamResult
  durations : Nat → Nat

/-- The initial state, from lines 58-65 of the source: empty cache, empty
queue, lastRequestTime = 0, isProcessingQueue = false. -/
def init (c : Config) : St :=
  { time := c.startTime, cache := [], queue := [], lastRequestTime := 0,
    isProcessingQueue := false, arrivals := c.arrivals, oracle := c.oracle,
    durations := c.durations, callIdx := 0, events := [], responses := [] }

/-
  The /api/watch/:id/:episode and /api/episodes/:id handlers
  (lines 208-267 and 269-291 of the source).  Both issue their upstream
  requests with direct axios.get calls: a Jikan metadata lookup
  (line 216 / line 274), a Gogoanime search inside getGogoanimeInfo
  (line 183), and a per-episode source or episode-list lookup
  (line 233 / line 281).  None of these goes through proxyRequest, the
  queue, the cache or the Rate Governor; the proxy-core state is never
  read or written by them.
-/

/-- JavaScript whitespace class membership for the characters relevant
here (the \s class and what trim removes). -/
def jsIsWs (c : Char) : Bool :=
  c = ' ' || c = '\t' || c = '\n' || c = '\r'

/-- Scan forward for the first closing parenthesis; some remainder past it,
or none when the parenthesis is never closed. -/
def dropToClose : List Char → Option (List Char)
  | [] => none
  | c :: rest => if c = ')' then some rest else dropToClose rest

/-- Fuel-indexed worker for stripParens; the fuel is the input length,
which bounds the recursion since every step consumes at least one
character. -/
def stripParensGo : Nat → List Char → List Char
  | 0, l => l
  | _ + 1, [] => []
  | fuel + 1, c :: rest =>
    if c = '(' then
      match dropToClose rest with
      | some rest2 => stripParensGo fuel rest2
      | none => c :: stripParensGo fuel rest
    else c :: stripParensGo fuel rest

/-- Line 174 of the source, .replace of the parenthesized-group regex with
the empty string: each opening parenthesis together with everything up to
the first closing parenthesis is removed; an opening parenthesis that is
never closed matches nothing and is kept. -/
def stripParens (l : List Char) : List Char := stripParensGo l.length l

/-- Match a literal prefix of the input, returning the remainder. -/
def matchPrefix : List Char → List Char → Option (List Char)
  | [], rest => some rest
  | _, [] => none
  | p :: ps, c :: cs => if p = c then matchPrefix ps cs else none

/-- Match the literal pattern followed by at least one decimal digit,
consuming all following digits (the greedy digit-run of the regexes on
lines 175-176), returning the remainder. -/
def matchPatNum (pat : List Char) (l : List Char) : Option (List Char) :=
  match matchPrefix pat l with
  | none => none
  | some rest =>
    match rest with
    | [] => none
    | c :: _ => if c.isDigit then some (rest.dropWhile Char.isDigit) else none

/-- Fuel-indexed worker for removePat; every step consumes at least one
character, so the input length bounds the recursion. -/
def removePatGo (pat : List Char) : Nat → List Char → List Char
  | 0, l => l
  | _ + 1, [] => []
  | fuel + 1, c :: rest =>
    match matchPatNum pat (c :: rest) with
    | some rest2 => removePatGo pat fuel rest2
    | none => c :: removePatGo pat fuel rest

/-- Lines 175-176 of the source: global removal of every occurrence of the
literal pattern followed by a digit run (the season/part regexes; the
input is already lowercased, so the i flag is moot). -/
def removePat (pat : List Char) (l : List Char) : List Char :=
  removePatGo pat l.length l

/-- String.prototype.trim of line 177: drop whitespace at both ends. -/
def trimChars (l : List Char) : List Char :=
  ((l.dropWhile jsIsWs).reverse.dropWhile jsIsWs).reverse

/-- Worker for collapseWs; the flag records whether the previous character
was whitespace already emitted as the single space. -/
def collapseWsGo : Bool → List Char → List Char
  | _, [] => []
  | prevWs, c :: rest =>
    if jsIsWs c then
      if prevWs then collapseWsGo true rest
      else ' ' :: collapseWsGo true rest
    else c :: collapseWsGo false rest

/-- Line 178 of the source, .replace of every whitespace run with one
space. -/
def collapseWs (l : List Char) : List Char := collapseWsGo false l

/-- Lines 171-178 of the source, the search-title cleanup inside
getGogoanimeInfo: lowercase, strip parenthesized groups, strip season-N
and part-N markers, trim, collapse whitespace. -/
def cleanTitle (title : String) : String :=
  let l := title.data.map Char.toLower
  let l := stripParens l
  let l := removePat ("season ".data) l
  let l := removePat ("part ".data) l
  let l := trimChars l
  String.mk (collapseWs l)

/-- Upper-case hexadecimal digit of a value below 16. -/
def hexDigitChar (n : Nat) : Char :=
  if n < 10 then Char.ofNat (48 + n) else Char.ofNat (55 + n)

/-- The UTF-8 encoding of one character, as the byte values. -/
def utf8Bytes (c : Char) : List Nat :=
  let n := c.toNat
  if n < 128 then [n]
  else if n < 2048 then [192 + n / 64, 128 + n % 64]
  else if n < 65536 then [224 + n / 4096, 128 + (n / 64) % 64, 128 + n % 64]
  else [240 + n / 262144, 128 + (n / 4096) % 64, 128 + (n / 64) % 64, 128 + n % 64]

/-- The characters encodeURIComponent leaves unescaped: letters, digits,
and - _ . ! ~ * apostrophe ( ). -/
def isUnreservedURI (c : Char) : Bool :=
  c.isAlpha || c.isDigit || c = '-' || c = '_' || c = '.' || c = '!' ||
  c = '~' || c = '*' || c = Char.ofNat 39 || c = '(' || c = ')'

/-- One percent-escaped byte, upper-case hex. -/
def pctEncodeByte (b : Nat) : List Char :=
  ['%', hexDigitChar (b / 16), hexDigitChar (b % 16)]

/-- JavaScript encodeURIComponent (used on lines 160 and 183): unreserved
characters pass through, every other character is percent-encoded
byte-by-byte in UTF-8. -/
def encodeURIComponent (s : String) : String :=
  String.mk (s.data.foldr
    (fun c acc =>
      (if isUnreservedURI c then [c] else (utf8Bytes c).foldr
        (fun b bacc => pctEncodeByte b ++ bacc) []) ++ acc) [])

/-- Accumulate the leading decimal-digit run into a number, stopping at the
first non-digit. -/
def parseDigitsAcc : Nat → List Char → Nat
  | acc, [] => acc
  | acc, c :: rest =>
    if c.isDigit then parseDigitsAcc (acc * 10 + (c.toNat - 48)) rest else acc

/-- JavaScript parseInt in base 10 as line 211 uses it: skip leading
whitespace, an optional sign, then a leading digit run; none when no digit
follows (NaN). -/
def parseIntJS (s : String) : Option Int :=
  match s.data.dropWhile jsIsWs with
  | [] => none
  | c :: rest =>
    if c = '-' then
      match rest with
      | d :: _ => if d.isDigit then some (-(parseDigitsAcc 0 rest : Int)) else none
      | [] => none
    else if c = '+' then
      match rest with
      | d :: _ => if d.isDigit then some ((parseDigitsAcc 0 rest : Int)) else none
      | [] => none
    else if c.isDigit then some ((parseDigitsAcc 0 (c :: rest) : Int)) else none

/-- Line 211 of the source, parseInt(req.params.episode) || 1: NaN and 0
are falsy and default to 1. -/
def episodeOf (p : String) : Int :=
  match parseIntJS p with
  | none => 1
  | some v => if v = 0 then 1 else v

/-- Which upstream API a direct axios.get call of the handlers targets:
ANIME_API_URL (Jikan, line 55) or GOGOANIME_API_URL (line 164). -/
inductive Api where
  | jikan
  | gogo
deriving DecidableEq

/-- One direct upstream request issued by a handler with axios.get,
outside the proxy core. -/
structure DirectCall where
  api : Api
  path : String
deriving DecidableEq

/-- The upstream responses an execution of a handler observes: the title
field of the Jikan full-info response (none = request failed), the ids of
the Gogoanime search results (none = request failed), the sources of the
watch response (none = request failed), and whether the episode-list
lookup succeeds. -/
structure WatchOracle where
  malTitle : Option String
  searchIds : Option (List String)
  sources : Option (List String)
  infoOk : Bool

/-- What a handler answers: a payload (the sources), or the 500 error of
its catch block. -/
inductive WatchOutcome where
  | ok (sources : List String)
  | failed
deriving DecidableEq

/-- Lines 167-205 of the source, getGogoanimeInfo: clean the title, issue
the direct search request, and return the first result's id; a failed
request or an empty result list throws. -/
def getGogoanimeInfo (title : String) (searchResp : Option (List String)) :
    List DirectCall × Option String :=
  let searchTitle := cleanTitle title
  let call : DirectCall := ⟨Api.gogo, "/search/" ++ encodeURIComponent searchTitle⟩
  match searchResp with
  | none => ([call], none)
  | some [] => ([call], none)
  | some (g :: _) => ([call], some g)

/-- Lines 208-267 of the source, the /api/watch/:id/:episode handler: a
direct Jikan full-info request, then getGogoanimeInfo on the returned
title, then a direct watch request for the episode id; any failure or an
empty sources list falls to the catch block (a 500).  The returned list is
every direct upstream call the execution issues, in order. -/
def watchHandler (id episodeParam : String) (o : WatchOracle) :
    List DirectCall × WatchOutcome :=
  let episode := episodeOf episodeParam
  let malCall : DirectCall := ⟨Api.jikan, "/anime/" ++ id ++ "/full"⟩
  match o.malTitle with
  | none => ([malCall], .failed)
  | some title =>
    match getGogoanimeInfo title o.searchIds with
    | (gcalls, none) => (malCall :: gcalls, .failed)
    | (gcalls, some gid) =>
      let episodeId := gid ++ "-episode-" ++ toString episode
      let watchCall : DirectCall := ⟨Api.gogo, "/watch/" ++ episodeId⟩
      match o.sources with
      | none => (malCall :: gcalls ++ [watchCall], .failed)
      | some srcs =>
        if srcs.isEmpty then (malCall :: gcalls ++ [watchCall], .failed)
        else (malCall :: gcalls ++ [watchCall], .ok srcs)

/-- Lines 269-291 of the source, the /api/episodes/:id handler: a direct
Jikan full-info request, getGogoanimeInfo, then a direct episode-list
request. -/
def episodesHandler (id : String) (o : WatchOracle) :
    List DirectCall × WatchOutcome :=
  let malCall : DirectCall := ⟨Api.jikan, "/anime/" ++ id ++ "/full"⟩
  match o.malTitle with
  | none => ([malCall], .failed)
  | some title =>
    match getGogoanimeInfo title o.searchIds with
    | (gcalls, none) => (malCall :: gcalls, .failed)
    | (gcalls, some gid) =>
      let infoCall : DirectCall := ⟨Api.gogo, "/info/" ++ gid⟩
      (malCall :: gcalls ++ [infoCall],
        if o.infoOk then .ok [] else .failed)

/-- The timing of a handler execution: its direct calls run sequentially
(each axios.get is awaited before the next), the i-th taking durs i
milliseconds, starting at t.  Each call becomes an observed upstream-call
event; these events carry no worker bookkeeping (caller 0, result
success 0), only the interval matters. -/
def timedCallsGo (durs : Nat → Nat) : Nat → Nat → List DirectCall → List Ev
  | _, _, [] => []
  | t, i, c :: rest =>
    ⟨c.path, 0, t, t + durs i, .success 0⟩ :: timedCallsGo durs (t + durs i) (i + 1) rest

/-- The upstream-call events of a handler execution starting at t. -/
def timedCalls (t : Nat) (durs : Nat → Nat) (calls : List DirectCall) : List Ev :=
  timedCallsGo durs t 0 calls

/-- Did the upstream call succeed (the try body of lines 91-104 runs)? -/
def isSuccB : UpstreamResult → Bool
  | .success _ => true
  | _ => false

/-- Was the upstream call answered with HTTP 429 (line 113)? -/
def is429B : UpstreamResult → Bool
  | .httpError st => st == 429
  | _ => false

/-- Results after which the worker enforces the spacing interval before
the next call: a success refreshes lastRequestTime, a 429 sleeps one
RATE_LIMIT_DELAY. -/
def goodResB (r : UpstreamResult) : Bool := isSuccB r || is429B r

/-- Results the worker treats as terminal (lines 120-124): any failure
other than HTTP 429. -/
def isTerminalErr : UpstreamResult → Bool
  | .success _ => false
  | .httpError st => if st = 429 then false else true
  | .netError => true

/-- The HTTP status the caller's error response carries (line 120):
the upstream status when available, 500 otherwise. -/
def errStatusOf : UpstreamResult → Nat
  | .httpError st => jsStatus st
  | _ => 500

/-- Ordering relation on the worker's event log (newest first): the later
call starts no earlier than the earlier one finished, and when the earlier
call succeeded or was throttled, at least one spacing interval later. -/
def follows (later earlier : Ev) : Prop :=
  earlier.finish ≤ later.start ∧
  (goodResB earlier.result = true → earlier.finish + RATE_LIMIT_DELAY ≤ later.start)

/-- The reachable-state invariant of the worker: events are well-formed
call intervals, chronologically ordered and spaced (newest first); the
Rate Governor timestamp never runs ahead of the clock; the newest event
finished by now, a successful newest event is what lastRequestTime records,
and after a throttled newest event the clock has already absorbed the
back-off sleep. -/
structure Inv (s : St) : Prop where
  wf : ∀ e ∈ s.events, e.start ≤ e.finish
  chain : List.Chain' follows s.events
  lrt_le : s.lastRequestTime ≤ s.time
  head_le : ∀ e, s.events.head? = some e → e.finish ≤ s.time
  head_succ : ∀ e, s.events.head? = some e → isSuccB e.result = true →
    e.finish ≤ s.lastRequestTime
  head_thr : ∀ e, s.events.head? = some e → is429B e.result = true →
    e.finish + RATE_LIMIT_DELAY ≤ s.time

/-
  Concrete scenarios used by the claim theorems.  The worker starts with
  lastRequestTime = 0, so the scenarios start the wall clock late enough
  (as in the running process, where Date.now() is large) that the first
  call is not artificially delayed.
-/

/-- The endpoint key of the specified three-concurrent-callers scenario. -/
def keyC1 : String := "/seasons/now?limit=24"

/-- Three fetches of the same key within one second; the upstream takes
1000 ms per call, so the second and third arrive while the first call is
still in flight, and every call succeeds with a distinct payload. -/
def cfgC1 : Config :=
  { startTime := 10000,
    arrivals := [⟨10000, keyC1, 0⟩, ⟨10300, keyC1, 1⟩, ⟨10600, keyC1, 2⟩],
    oracle := fun i => .success (100 + i),
    durations := fun _ => 1000 }

/-- One successful fetch of a key, then a second fetch of the same key
50 ms after the first completes (well within the 5-minute TTL). -/
def cfgC2 : Config :=
  { startTime := 2000,
    arrivals := [⟨2000, "/k", 0⟩, ⟨2150, "/k", 1⟩],
    oracle := fun _ => .success 77,
    durations := fun _ => 100 }

/-- Two queued keys where the first call fails terminally (HTTP 500) and
the second succeeds. -/
def cfgC3 : Config :=
  { startTime := 2000,
    arrivals := [⟨2000, "/a", 0⟩, ⟨2050, "/b", 1⟩],
    oracle := fun i => if i = 0 then .httpError 500 else .success 7,
    durations := fun _ => 100 }

/-- Two queued keys A then B, where A is throttled (HTTP 429) once and
then succeeds on retry. -/
def cfgC4 : Config :=
  { startTime := 2000,
    arrivals := [⟨2000, "/a", 0⟩, ⟨2050, "/b", 1⟩],
    oracle := fun i => if i = 0 then .httpError 429 else .success (200 + i),
    durations := fun _ => 100 }

/-- One proxied fetch whose upstream call is in flight from 2000 to 3000. -/
def cfgW : Config :=
  { startTime := 2000,
    arrivals := [⟨2000, "/k", 0⟩],
    oracle := fun _ => .success 5,
    durations := fun _ => 1000 }

/-- Upstream responses for a watch-handler execution: the Jikan lookup
returns the title Naruto, the Gogoanime search finds one result, and the
episode-source lookup returns one source. -/
def oW : WatchOracle := ⟨some "Naruto", some ["naruto"], some ["s1"], true⟩

/-- Durations of the watch handler's direct calls: 500 ms each. -/
def dursW : Nat → Nat := fun _ => 500

/-- All upstream calls of the program in the combined scenario: the
proxied fetch of cfgW (chronological order) together with the direct
calls of one /api/watch request that arrives at 2200, while the proxied
call is still in flight. -/
def programEventsW : List Ev :=
  (run 20 (init cfgW)).events.reverse ++
    timedCalls 2200 dursW (watchHandler "5" "1" oW).1

/-- A state whose cache holds a fresh entry for the key /k, written at
2100, with the clock at 2150. -/
def sC2 : St :=
  { time := 2150, cache := [("/k", ⟨77, 2100⟩)], queue := [],
    lastRequestTime := 2100, isProcessingQueue := false, arrivals := [],
    oracle := fun _ => .netError, durations := fun _ => 0, callIdx := 1,
    events := [], responses := [] }

/-- A worker state holding two queued items whose next upstream call will
fail with HTTP 503. -/
def sC5 : St :=
  { time := 5000, cache := [("/x", ⟨1, 100⟩)], queue := [⟨"/a", 3⟩, ⟨"/b", 4⟩],
    lastRequestTime := 4500, isProcessingQueue := true, arrivals := [],
    oracle := fun _ => .httpError 503, durations := fun _ => 120, callIdx := 0,
    events := [], responses := [] }

/-- A worker state whose queued item's key already has a fresh cache
entry (written at 4000, clock 4200), with the next call set to succeed. -/
def sC10 : St :=
  { time := 4200, cache := [("/a", ⟨42, 4000⟩)], queue := [⟨"/a", 6⟩],
    lastRequestTime := 4000, isProcessingQueue := true, arrivals := [],
    oracle := fun _ => .success 43, durations := fun _ => 50, callIdx := 2,
    events := [], responses := [] }

/-- A state in which a worker-loop instance is already running
(isProcessingQueue = true) with one queued item. -/
def sC8 : St :=
  { time := 9000, cache := [], queue := [⟨"/q", 8⟩],
    lastRequestTime := 0, isProcessingQueue := true, arrivals := [],
    oracle := fun _ => .netError, durations := fun _ => 10, callIdx := 0,
    events := [], responses := [] }

/-- The same state with the queue drained, just before the loop exits. -/
def sC8e : St :=
  { sC8 with queue := [] }

/- Frame lemmas: what handleArrival and admitGo leave untouched. -/

theorem handleArrival_events (a : Arrival) (s : St) :
    (handleArrival a s).events = s.events := by
  unfold handleArrival processQueueEntry
  repeat' split
  all_goals rfl

theorem handleArrival_time (a : Arrival) (s : St) :
    (handleArrival a s).time = s.time := by
  unfold handleArrival processQueueEntry
  repeat' split
  all_goals rfl

theorem handleArrival_lrt (a : Arrival) (s : St) :
    (handleArrival a s).lastRequestTime = s.lastRequestTime := by
  unfold handleArrival processQueueEntry
  repeat' split
  all_goals rfl

theorem handleArrival_cache (a : Arrival) (s : St) :
    (handleArrival a s).cache = s.cache := by
  unfold handleArrival processQueueEntry
  repeat' split
  all_goals rfl

theorem handleArrival_callIdx (a : Arrival) (s : St) :
    (handleArrival a s).callIdx = s.callIdx := by
  unfold handleArrival processQueueEntry
  repeat' split
  all_goals rfl

theorem handleArrival_durations (a : Arrival) (s : St) :
    (handleArrival a s).durations = s.durations := by
  unfold handleArrival processQueueEntry
  repeat' split
  all_goals rfl

theorem handleArrival_oracle (a : Arrival) (s : St) :
    (handleArrival a s).oracle = s.oracle := by
  unfold handleArrival processQueueEntry
  repeat' split
  all_goals rfl

theorem handleArrival_queue (a : Arrival) (s : St) :
    ∃ tail, (handleArrival a s).queue = s.queue ++ tail := by
  unfold handleArrival processQueueEntry
  repeat' split
  · exact ⟨[], by simp⟩
  all_goals exact ⟨[⟨a.endpoint, a.caller⟩], rfl⟩

theorem admitGo_events (t : Nat) :
    ∀ (l : List Arrival) (s : St), (admitGo t l s).events = s.events
  | [], _ => rfl
  | a :: rest, s => by
    unfold admitGo
    split
    · rw [admitGo_events t rest, handleArrival_events]
    · rfl

theorem admitGo_lrt (t : Nat) :
    ∀ (l : List Arrival) (s : St),
      (admitGo t l s).lastRequestTime = s.lastRequestTime
  | [], _ => rfl
  | a :: rest, s => by
    unfold admitGo
    split
    · rw [admitGo_lrt t rest, handleArrival_lrt]
    · rfl

theorem admitGo_cache (t : Nat) :
    ∀ (l : List Arrival) (s : St), (admitGo t l s).cache = s.cache
  | [], _ => rfl
  | a :: rest, s => by
    unfold admitGo
    split
    · rw [admitGo_cache t rest, handleArrival_cache]
    · rfl

theorem admitGo_callIdx (t : Nat) :
    ∀ (l : List Arrival) (s : St), (admitGo t l s).callIdx = s.callIdx
  | [], _ => rfl
  | a :: rest, s => by
    unfold admitGo
    split
    · rw [admitGo_callIdx t rest, handleArrival_callIdx]
    · rfl

theorem admitGo_durations (t : Nat) :
    ∀ (l : List Arrival) (s : St), (admitGo t l s).durations = s.durations
  | [], _ => rfl
  | a :: rest, s => by
    unfold admitGo
    split
    · rw [admitGo_durations t rest, handleArrival_durations]
    · rfl

theorem admitGo_oracle (t : Nat) :
    ∀ (l : List Arrival) (s : St), (admitGo t l s).oracle = s.oracle
  | [], _ => rfl
  | a :: rest, s => by
    unfold admitGo
    split
    · rw [admitGo_oracle t rest, handleArrival_oracle]
    · rfl

theorem admitGo_time (t : Nat) :
    ∀ (l : List Arrival) (s : St), (admitGo t l s).time = t
  | [], _ => rfl
  | a :: rest, s => by
    unfold admitGo
    split
    · rw [admitGo_time t rest]
    · rfl

theorem admitGo_queue (t : Nat) :
    ∀ (l : List Arrival) (s : St), ∃ tail, (admitGo t l s).queue = s.queue ++ tail
  | [], s => ⟨[], by simp [admitGo]⟩
  | a :: rest, s => by
    unfold admitGo
    split
    · obtain ⟨t2, h2⟩ := admitGo_queue t rest (handleArrival a s)
      obtain ⟨t1, h1⟩ := handleArrival_queue a s
      exact ⟨t1 ++ t2, by rw [h2, h1, List.append_assoc]⟩
    · exact ⟨[], by simp⟩

/-- With no arrival pending, one worker iteration on a non-empty queue is
exactly: sleep to t1 = now + waitTime, issue the head item's call, handle
its completion at t2 = t1 + duration. -/
theorem cycle_eq_of_no_arrivals (s : St) (item : Item) (rest : List Item)
    (hq : s.queue = item :: rest) (ha : s.arrivals = []) :
    cycle s = completeCall item (s.time + waitTime s)
      (s.time + waitTime s + s.durations s.callIdx) (s.oracle s.callIdx)
      { s with time := s.time + waitTime s + s.durations s.callIdx,
               arrivals := [], queue := rest } := by
  simp only [cycle, admitUpTo, ha, admitGo, hq]

/-- Every completion, of any result kind, logs exactly one upstream-call
event with the item, the start and the completion instants. -/
theorem completeCall_events (item : Item) (t1 t2 : Nat) (r : UpstreamResult) (s : St) :
    (completeCall item t1 t2 r s).events =
      (⟨item.endpoint, item.caller, t1, t2, r⟩ : Ev) :: s.events := by
  unfold completeCall
  cases r with
  | success d => rfl
  | httpError st =>
    by_cases h : st = 429 <;> simp [h]
  | netError => rfl

theorem inv_frame (s s2 : St) (hev : s2.events = s.events)
    (hl : s2.lastRequestTime = s.lastRequestTime) (ht : s.time ≤ s2.time)
    (h : Inv s) : Inv s2 := by
  refine ⟨?_, ?_, ?_, ?_, ?_, ?_⟩
  · rw [hev]; exact h.wf
  · rw [hev]; exact h.chain
  · rw [hl]; exact le_trans h.lrt_le ht
  · intro e he; rw [hev] at he; exact le_trans (h.head_le e he) ht
  · intro e he hs; rw [hev] at he; rw [hl]; exact h.head_succ e he hs
  · intro e he hs; rw [hev] at he; exact le_trans (h.head_thr e he hs) ht

theorem inv_admitGo (t : Nat) (l : List Arrival) (s : St) (ht : s.time ≤ t)
    (h : Inv s) : Inv (admitGo t l s) :=
  inv_frame s (admitGo t l s) (admitGo_events t l s) (admitGo_lrt t l s)
    (by rw [admitGo_time]; exact ht) h

/-- The Rate Governor gate: the next call starts no sooner than one
spacing interval past lastRequestTime (lines 73-78 compute exactly the
missing remainder). -/
theorem lrt_delay_le (s : St) (h : s.lastRequestTime ≤ s.time) :
    s.lastRequestTime + RATE_LIMIT_DELAY ≤ s.time + waitTime s := by
  unfold waitTime RATE_LIMIT_DELAY
  dsimp only
  split <;> omega

/-- The success branch of completeCall, lines 91-104 of the source. -/
theorem completeCall_success_eq (item : Item) (t1 t2 d : Nat) (s : St) :
    completeCall item t1 t2 (.success d) s =
      { s with lastRequestTime := t2,
               cache := cacheSet s.cache item.endpoint d t2,
               events := (⟨item.endpoint, item.caller, t1, t2, .success d⟩ : Ev) :: s.events,
               responses := (item.caller, Resp.ok d) :: s.responses,
               callIdx := s.callIdx + 1 } := rfl

/-- The 429 branch of completeCall, lines 113-118 of the source. -/
theorem completeCall_thr_eq (item : Item) (t1 t2 : Nat) (s : St) :
    completeCall item t1 t2 (.httpError 429) s =
      { s with queue := item :: s.queue,
               time := t2 + RATE_LIMIT_DELAY,
               events := (⟨item.endpoint, item.caller, t1, t2, .httpError 429⟩ : Ev) :: s.events,
               callIdx := s.callIdx + 1 } := by
  simp [completeCall]

/-- The terminal-error branch of completeCall, lines 120-124 of the
source, for an HTTP status other than 429. -/
theorem completeCall_err_eq (item : Item) (t1 t2 st : Nat) (s : St) (h : ¬ st = 429) :
    completeCall item t1 t2 (.httpError st) s =
      { s with events := (⟨item.endpoint, item.caller, t1, t2, .httpError st⟩ : Ev) :: s.events,
               responses := (item.caller, Resp.err (jsStatus st)) :: s.responses,
               callIdx := s.callIdx + 1 } := by
  simp [completeCall, h]

/-- The terminal-error branch of completeCall for a failure with no HTTP
response at all (timeout, network error). -/
theorem completeCall_net_eq (item : Item) (t1 t2 : Nat) (s : St) :
    completeCall item t1 t2 .netError s =
      { s with events := (⟨item.endpoint, item.caller, t1, t2, .netError⟩ : Ev) :: s.events,
               responses := (item.caller, Resp.err 500) :: s.responses,
               callIdx := s.callIdx + 1 } := rfl

theorem inv_completeCall (item : Item) (t1 t2 : Nat) (r : UpstreamResult) (s : St)
    (h : Inv s) (h12 : t1 ≤ t2) (ht : s.time = t2) (hlrt : s.lastRequestTime ≤ t2)
    (hhead : ∀ e, s.events.head? = some e →
      e.finish ≤ t1 ∧ (goodResB e.result = true → e.finish + RATE_LIMIT_DELAY ≤ t1)) :
    Inv (completeCall item t1 t2 r s) := by
  have hwf : ∀ e ∈ (⟨item.endpoint, item.caller, t1, t2, r⟩ : Ev) :: s.events,
      e.start ≤ e.finish := by
    intro e he
    rcases List.mem_cons.mp he with rfl | hmem
    · exact h12
    · exact h.wf e hmem
  have hchain : List.Chain' follows ((⟨item.endpoint, item.caller, t1, t2, r⟩ : Ev) :: s.events) := by
    rw [List.chain'_cons']
    refine ⟨?_, h.chain⟩
    intro b hb
    exact ⟨(hhead b hb).1, fun hg => (hhead b hb).2 hg⟩
  cases r with
  | success d =>
    rw [completeCall_success_eq]
    refine ⟨hwf, hchain, ?_, ?_, ?_, ?_⟩
    · show t2 ≤ s.time
      exact le_of_eq ht.symm
    · intro e he
      simp only [List.head?_cons, Option.some_inj] at he
      subst he
      show t2 ≤ s.time
      exact le_of_eq ht.symm
    · intro e he _
      simp only [List.head?_cons, Option.some_inj] at he
      subst he
      show t2 ≤ t2
      exact le_refl t2
    · intro e he hthr
      simp only [List.head?_cons, Option.some_inj] at he
      subst he
      simp [is429B] at hthr
  | httpError st =>
    by_cases h429 : st = 429
    · subst h429
      rw [completeCall_thr_eq]
      refine ⟨hwf, hchain, ?_, ?_, ?_, ?_⟩
      · show s.lastRequestTime ≤ t2 + RATE_LIMIT_DELAY
        exact le_trans hlrt (Nat.le_add_right t2 RATE_LIMIT_DELAY)
      · intro e he
        simp only [List.head?_cons, Option.some_inj] at he
        subst he
        show t2 ≤ t2 + RATE_LIMIT_DELAY
        exact Nat.le_add_right t2 RATE_LIMIT_DELAY
      · intro e he hs
        simp only [List.head?_cons, Option.some_inj] at he
        subst he
        simp [isSuccB] at hs
      · intro e he _
        simp only [List.head?_cons, Option.some_inj] at he
        subst he
        show t2 + RATE_LIMIT_DELAY ≤ t2 + RATE_LIMIT_DELAY
        exact le_refl _
    · rw [completeCall_err_eq item t1 t2 st s h429]
      refine ⟨hwf, hchain, ?_, ?_, ?_, ?_⟩
      · exact h.lrt_le
      · intro e he
        simp only [List.head?_cons, Option.some_inj] at he
        subst he
        show t2 ≤ s.time
        exact le_of_eq ht.symm
      · intro e he hs
        simp only [List.head?_cons, Option.some_inj] at he
        subst he
        simp [isSuccB] at hs
      · intro e he hthr
        simp only [List.head?_cons, Option.some_inj] at he
        subst he
        simp only [is429B, beq_iff_eq] at hthr
        exact absurd hthr h429
  | netError =>
    rw [completeCall_net_eq]
    refine ⟨hwf, hchain, ?_, ?_, ?_, ?_⟩
    · exact h.lrt_le
    · intro e he
      simp only [List.head?_cons, Option.some_inj] at he
      subst he
      show t2 ≤ s.time
      exact le_of_eq ht.symm
    · intro e he hs
      simp only [List.head?_cons, Option.some_inj] at he
      subst he
      simp [isSuccB] at hs
    · intro e he hthr
      simp only [List.head?_cons, Option.some_inj] at he
      subst he
      simp [is429B] at hthr

theorem inv_cycle (s : St) (h : Inv s) : Inv (cycle s) := by
  unfold cycle admitUpTo
  have h1 : Inv (admitGo (s.time + waitTime s) s.arrivals s) :=
    inv_admitGo _ _ _ (Nat.le_add_right _ _) h
  dsimp only
  split
  · exact h1
  · rename_i item rest heq
    set s1 := admitGo (s.time + waitTime s) s.arrivals s with hs1
    have h1q : Inv { s1 with queue := rest } :=
      inv_frame s1 { s1 with queue := rest } rfl rfl (le_refl _) h1
    have htime1 : s1.time = s.time + waitTime s := admitGo_time _ _ _
    have h2 : Inv (admitGo (s.time + waitTime s + s1.durations s1.callIdx)
        ({ s1 with queue := rest }).arrivals { s1 with queue := rest }) := by
      refine inv_admitGo _ _ _ ?_ h1q
      show s1.time ≤ _
      rw [htime1]
      exact Nat.le_add_right _ _
    refine inv_completeCall _ _ _ _ _ h2 (Nat.le_add_right _ _) ?_ ?_ ?_
    · rw [admitGo_time]
    · rw [admitGo_lrt]
      show s1.lastRequestTime ≤ _
      rw [hs1, admitGo_lrt]
      calc s.lastRequestTime ≤ s.time := h.lrt_le
        _ ≤ s.time + waitTime s := Nat.le_add_right _ _
        _ ≤ _ := Nat.le_add_right _ _
    · intro e he
      rw [admitGo_events] at he
      show e.finish ≤ s.time + waitTime s ∧ _
      have he' : s.events.head? = some e := by
        have : ({ s1 with queue := rest } : St).events = s.events := by
          show s1.events = s.events
          rw [hs1, admitGo_events]
        rw [this] at he
        exact he
      constructor
      · exact le_trans (h.head_le e he')
          (Nat.le_add_right _ _)
      · intro hg
        have hg2 : isSuccB e.result = true ∨ is429B e.result = true := by
          simpa [goodResB] using hg
        rcases hg2 with hsucc | hthr
        · calc e.finish + RATE_LIMIT_DELAY
              ≤ s.lastRequestTime + RATE_LIMIT_DELAY :=
                Nat.add_le_add_right (h.head_succ e he' hsucc) _
            _ ≤ s.time + waitTime s := lrt_delay_le s h.lrt_le
        · exact le_trans (h.head_thr e he' hthr) (Nat.le_add_right _ _)

theorem inv_step (s : St) (h : Inv s) : Inv (step s) := by
  unfold step
  split
  · split
    · exact inv_frame s _ rfl rfl (le_refl _) h
    · exact inv_cycle s h
  · split
    · exact h
    · exact inv_admitGo _ _ _ (Nat.le_max_left _ _) h

theorem inv_run : ∀ (fuel : Nat) (s : St), Inv s → Inv (run fuel s)
  | 0, _, h => h
  | fuel + 1, s, h => inv_run fuel (step s) (inv_step s h)

theorem inv_init (c : Config) : Inv (init c) := by
  refine ⟨?_, ?_, ?_, ?_, ?_, ?_⟩
  · intro e he; simp [init] at he
  · simp [init]
  · exact Nat.zero_le _
  · intro e he; simp [init] at he
  · intro e he; simp [init] at he
  · intro e he; simp [init] at he

/-- In a chronologically chained, well-formed log, every event below the
head finished before the head started. -/
theorem chain_head_bound : ∀ (l : List Ev) (a : Ev), List.Chain' follows (a :: l) →
    (∀ e ∈ a :: l, e.start ≤ e.finish) → ∀ b ∈ l, b.finish ≤ a.start
  | [], _, _, _, b, hb => absurd hb (List.not_mem_nil b)
  | c :: rest, a, hch, hwf, b, hb => by
    have hac : follows a c := (List.chain'_cons.mp hch).1
    rcases List.mem_cons.mp hb with rfl | hmem
    · exact hac.1
    · have htail : List.Chain' follows (c :: rest) := (List.chain'_cons.mp hch).2
      have hwf' : ∀ e ∈ c :: rest, e.start ≤ e.finish := fun e he =>
        hwf e (List.mem_cons_of_mem a he)
      calc b.finish ≤ c.start := chain_head_bound rest c htail hwf' b hmem
        _ ≤ c.finish := hwf c (List.mem_cons_of_mem a (List.mem_cons_self c rest))
        _ ≤ a.start := hac.1

/-- A chronologically chained, well-formed log is pairwise disjoint: of
any two logged calls, the earlier finished before the later started. -/
theorem chain_wf_pairwise : ∀ (l : List Ev), List.Chain' follows l →
    (∀ e ∈ l, e.start ≤ e.finish) →
    List.Pairwise (fun x y => y.finish ≤ x.start) l
  | [], _, _ => List.Pairwise.nil
  | a :: rest, hch, hwf => by
    refine List.Pairwise.cons ?_ ?_
    · exact fun b hb => chain_head_bound rest a hch hwf b hb
    · exact chain_wf_pairwise rest (List.chain'_cons'.mp hch).2
        (fun e he => hwf e (List.mem_cons_of_mem a he))

/-- The worker's upstream calls never overlap, in any execution. -/
theorem run_pairwise (cfg : Config) (fuel : Nat) :
    List.Pairwise (fun x y => y.finish ≤ x.start) (run fuel (init cfg)).events :=
  chain_wf_pairwise _ (inv_run fuel (init cfg) (inv_init cfg)).chain
    (inv_run fuel (init cfg) (inv_init cfg)).wf

/-- Whatever the upstream answers, the first thing the watch handler does
is the direct Jikan metadata request. -/
theorem watchHandler_calls_head (id ep : String) (o : WatchOracle) :
    ∃ t, (watchHandler id ep o).1 =
      (⟨Api.jikan, "/anime/" ++ id ++ "/full"⟩ : DirectCall) :: t := by
  unfold watchHandler
  rcases o.malTitle with _ | title
  · exact ⟨_, rfl⟩
  · dsimp only
    rcases getGogoanimeInfo title o.searchIds with ⟨gcalls, _ | gid⟩
    · exact ⟨_, rfl⟩
    · dsimp only
      rcases o.sources with _ | srcs
      · exact ⟨_, rfl⟩
      · dsimp only
        split
        · exact ⟨_, rfl⟩
        · exact ⟨_, rfl⟩

/-- Whatever the upstream answers, the first thing the episodes handler
does is the direct Jikan metadata request. -/
theorem episodesHandler_calls_head (id : String) (o : WatchOracle) :
    ∃ t, (episodesHandler id o).1 =
      (⟨Api.jikan, "/anime/" ++ id ++ "/full"⟩ : DirectCall) :: t := by
  unfold episodesHandler
  rcases o.malTitle with _ | title
  · exact ⟨_, rfl⟩
  · dsimp only
    rcases getGogoanimeInfo title o.searchIds with ⟨gcalls, _ | gid⟩
    · exact ⟨_, rfl⟩
    · exact ⟨_, rfl⟩

/-- C1 counterexample.  The specified scenario (three fetch(K) calls
within one second, here at 10000, 10300 and 10600 ms with each upstream
call taking 1000 ms) does not produce exactly one upstream call: the
second and third callers arrive while the first call is in flight, are
queued without any per-key coalescing, and each gets its own upstream
call, so three calls are observed and the callers receive three distinct
payloads, not one identical payload. -/
theorem c1_counterexample :
    (run 20 (init cfgC1)).events.length = 3 ∧
    ¬ (run 20 (init cfgC1)).events.length = 1 ∧
    (run 20 (init cfgC1)).events.map Ev.endpoint = [keyC1, keyC1, keyC1] ∧
    (run 20 (init cfgC1)).responses =
      [(2, Resp.ok 102), (1, Resp.ok 101), (0, Resp.ok 100)] :=
  ⟨by decide, by decide, by decide, by decide⟩

/-- C1 (amended): at most one upstream call for any key K is in flight at
any instant, because the worker serializes all of its calls (any two
worker calls for the same key occupy disjoint time intervals, in every
execution); but concurrent fetch(K) calls are not coalesced: three
fetch(K) calls issued within one second while the first upstream call is
in flight produce three sequential upstream calls, one per caller, each
caller receiving its own payload. -/
theorem c1_amended :
    (∀ (cfg : Config) (fuel : Nat),
      List.Pairwise
        (fun x y => x.endpoint = y.endpoint → (y.finish ≤ x.start ∨ x.finish ≤ y.start))
        (run fuel (init cfg)).events) ∧
    (run 20 (init cfgC1)).events.length = 3 ∧
    (run 20 (init cfgC1)).events.map Ev.endpoint = [keyC1, keyC1, keyC1] ∧
    (run 20 (init cfgC1)).responses =
      [(2, Resp.ok 102), (1, Resp.ok 101), (0, Resp.ok 100)] := by
  refine ⟨?_, by decide, by decide, by decide⟩
  intro cfg fuel
  exact (run_pairwise cfg fuel).imp (fun h _ => Or.inl h)

/-- C2: a fetch of key K arriving while the cache holds an entry for K
fresher than CACHE_DURATION answers the caller at once with the stored
payload and changes nothing else: no upstream call, no queueing, no
worker trigger.  The concrete scenario runs the whole pipeline: a
successful fetch of /k completing at 2100 populates the cache, and a
second fetch at 2150 is answered from the cache with the identical
payload while only one upstream call is ever issued. -/
theorem c2_theorem (a : Arrival) (s : St) (e : CacheEntry)
    (hc : cacheGet s.cache a.endpoint = some e)
    (hf : a.time - e.timestamp < CACHE_DURATION) :
    handleArrival a s =
      { s with responses := (a.caller, Resp.hit e.data) :: s.responses } ∧
    (run 20 (init cfgC2)).events.length = 1 ∧
    (run 20 (init cfgC2)).responses = [(1, Resp.hit 77), (0, Resp.ok 77)] := by
  refine ⟨?_, by decide, by decide⟩
  unfold handleArrival
  rw [hc]
  dsimp only
  rw [if_pos hf]

/-- C2 witness: the cached fast path at a concrete input (key /k stored
at 2100 with payload 77, looked up at 2150). -/
theorem c2_witness :
    handleArrival ⟨2150, "/k", 9⟩ sC2 =
      { sC2 with responses := [(9, Resp.hit 77)] } ∧
    (run 20 (init cfgC2)).events.length = 1 ∧
    (run 20 (init cfgC2)).responses = [(1, Resp.hit 77), (0, Resp.ok 77)] :=
  c2_theorem ⟨2150, "/k", 9⟩ sC2 ⟨77, 2100⟩ (by decide) (by decide)

/-- C3 counterexample.  In the scenario where the call for /a fails
terminally (HTTP 500, completing at 2100) with /b queued behind it, the
call for /b starts at 2100, zero milliseconds after the completion of the
previous upstream call: consecutive upstream calls are not always
separated by RATE_LIMIT_DELAY, because lastRequestTime is only refreshed
on success. -/
theorem c3_counterexample :
    (run 20 (init cfgC3)).events.reverse.map (fun e => (e.endpoint, e.start, e.finish)) =
      [("/a", 2000, 2100), ("/b", 2100, 2200)] ∧
    isTerminalErr (.httpError 500) = true ∧
    ¬ (2100 + RATE_LIMIT_DELAY ≤ 2100) :=
  ⟨by decide, by decide, by decide⟩

/-- C3 (amended): in chronological order, whenever a worker upstream call
completes successfully or with HTTP 429, the next worker upstream call
starts at least RATE_LIMIT_DELAY after that completion, in every
execution; after a terminal failure (any other error) the next call may
start immediately, since lastRequestTime is not refreshed then. -/
theorem c3_amended (cfg : Config) (fuel : Nat) :
    List.Chain'
      (fun earlier later => goodResB earlier.result = true →
        earlier.finish + RATE_LIMIT_DELAY ≤ later.start)
      ((run fuel (init cfg)).events.reverse) := by
  rw [List.chain'_reverse]
  exact List.Chain'.imp (fun a b h => h.2)
    (inv_run fuel (init cfg) (inv_init cfg)).chain

/-- The governor gate is already open when one spacing interval has
passed since lastRequestTime. -/
theorem waitTime_zero (c : St) (h : c.lastRequestTime + RATE_LIMIT_DELAY ≤ c.time) :
    waitTime c = 0 := by
  unfold RATE_LIMIT_DELAY at h
  unfold waitTime RATE_LIMIT_DELAY
  dsimp only
  split
  · omega
  · rfl

/-- A worker iteration with no pending arrival and no governor wait logs
the head item's upstream call as starting now. -/
theorem cycle_retry_aux (c : St) (item : Item) (rest : List Item)
    (hq : c.queue = item :: rest) (ha : c.arrivals = [])
    (hw : waitTime c = 0) :
    (cycle c).events =
      (⟨item.endpoint, item.caller, c.time, c.time + c.durations c.callIdx,
        c.oracle c.callIdx⟩ : Ev) :: c.events := by
  rw [cycle_eq_of_no_arrivals c item rest hq ha, completeCall_events, hw]
  simp

/-- C4: when the upstream call for the head item answers HTTP 429, the
worker reinserts that same item at the head of the queue, and the very
next upstream call it issues is the retry of that item, starting exactly
one RATE_LIMIT_DELAY after the 429 completed, with no other queued item
processed in between (the two newest logged events are both the item's).
Concretely, for a queue holding /a then /b where /a is throttled once and
then succeeds, the observed upstream call order is /a(429), /a(success)
starting exactly 1000 ms after the 429 completed, then /b. -/
theorem c4_theorem :
    (∀ (s : St) (item : Item) (rest : List Item),
      s.queue = item :: rest → s.arrivals = [] →
      s.oracle s.callIdx = .httpError 429 → s.lastRequestTime ≤ s.time →
      (cycle s).queue.head? = some item ∧
      (cycle (cycle s)).events =
        (⟨item.endpoint, item.caller,
          s.time + waitTime s + s.durations s.callIdx + RATE_LIMIT_DELAY,
          s.time + waitTime s + s.durations s.callIdx + RATE_LIMIT_DELAY +
            s.durations (s.callIdx + 1),
          s.oracle (s.callIdx + 1)⟩ : Ev) ::
        (⟨item.endpoint, item.caller, s.time + waitTime s,
          s.time + waitTime s + s.durations s.callIdx, .httpError 429⟩ : Ev) ::
        s.events) ∧
    (run 25 (init cfgC4)).events.reverse.map
      (fun e => (e.endpoint, e.start, e.finish, e.result)) =
      [("/a", 2000, 2100, .httpError 429), ("/a", 3100, 3200, .success 201),
       ("/b", 4200, 4300, .success 202)] := by
  refine ⟨?_, by decide⟩
  intro s item rest hq ha hr hlrt
  have hc1 : cycle s =
      { s with queue := item :: rest,
               time := s.time + waitTime s + s.durations s.callIdx + RATE_LIMIT_DELAY,
               arrivals := [],
               events := (⟨item.endpoint, item.caller, s.time + waitTime s,
                 s.time + waitTime s + s.durations s.callIdx, .httpError 429⟩ : Ev) :: s.events,
               callIdx := s.callIdx + 1 } := by
    rw [cycle_eq_of_no_arrivals s item rest hq ha, hr, completeCall_thr_eq]
  constructor
  · rw [hc1]
    rfl
  · rw [hc1]
    refine Eq.trans (cycle_retry_aux _ item rest rfl rfl (waitTime_zero _ ?_)) ?_
    · show s.lastRequestTime + RATE_LIMIT_DELAY ≤
        s.time + waitTime s + s.durations s.callIdx + RATE_LIMIT_DELAY
      omega
    · rfl

/-- C5: when the upstream call for the head item fails with anything other
than HTTP 429 (a 4xx/5xx response, a timeout, a network error), at an
instant with no arrival pending, the worker resolves that caller with an
error carrying the upstream HTTP status when available and 500 otherwise,
removes the item from the queue without re-inserting it (no retry),
leaves the Cache Store untouched (zero cache writes) and leaves
lastRequestTime untouched, logging exactly the one failed call. -/
theorem c5_theorem (s : St) (item : Item) (rest : List Item)
    (hq : s.queue = item :: rest) (ha : s.arrivals = [])
    (hterm : isTerminalErr (s.oracle s.callIdx) = true) :
    (cycle s).cache = s.cache ∧
    (cycle s).queue = rest ∧
    (cycle s).lastRequestTime = s.lastRequestTime ∧
    (cycle s).responses =
      (item.caller, Resp.err (errStatusOf (s.oracle s.callIdx))) :: s.responses ∧
    (cycle s).events.length = s.events.length + 1 := by
  rw [cycle_eq_of_no_arrivals s item rest hq ha]
  rcases hr : s.oracle s.callIdx with d | st | _
  · rw [hr] at hterm
    simp [isTerminalErr] at hterm
  · have h429 : ¬ st = 429 := by
      rw [hr] at hterm
      by_cases hcon : st = 429
      · subst hcon
        simp [isTerminalErr] at hterm
      · exact hcon
    rw [completeCall_err_eq _ _ _ _ _ h429]
    exact ⟨rfl, rfl, rfl, rfl, rfl⟩
  · rw [completeCall_net_eq]
    exact ⟨rfl, rfl, rfl, rfl, rfl⟩

/-- C5 witness: a concrete worker state whose head item's call fails with
HTTP 503; the caller receives a 503 error, the item is gone, the cache
and lastRequestTime are untouched. -/
theorem c5_witness :
    (cycle sC5).cache = sC5.cache ∧
    (cycle sC5).queue = [⟨"/b", 4⟩] ∧
    (cycle sC5).lastRequestTime = sC5.lastRequestTime ∧
    (cycle sC5).responses = [(3, Resp.err 503)] ∧
    (cycle sC5).events.length = 1 :=
  c5_theorem sC5 ⟨"/a", 3⟩ [⟨"/b", 4⟩] (by decide) (by decide) (by decide)

/-- C6 counterexample.  One proxied fetch of /k whose upstream call is in
flight from 2000 to 3000, concurrent with one /api/watch request arriving
at 2200: the watch handler's direct Jikan call runs from 2200 to 2700,
overlapping the worker's call (neither call finishes before the other
starts), so two upstream calls issued by the program are in flight at
once.  The handlers' direct axios calls are outside the worker's
single-flight guard. -/
theorem c6_counterexample :
    programEventsW.map (fun e => (e.endpoint, e.start, e.finish)) =
      [("/k", 2000, 3000), ("/anime/5/full", 2200, 2700),
       ("/search/naruto", 2700, 3200), ("/watch/naruto-episode-1", 3200, 3700)] ∧
    ¬ (3000 ≤ 2200 ∨ 2700 ≤ 2000) :=
  ⟨by decide, by decide⟩

/-- C6 (amended): at most one upstream call issued by the queue worker is
in flight at any instant, in every execution and for every pattern of
concurrent fetch invocations — any two worker calls occupy disjoint time
intervals; upstream calls issued directly by the watch and episodes
handlers bypass the worker and are not covered by this guarantee. -/
theorem c6_amended (cfg : Config) (fuel : Nat) :
    List.Pairwise (fun x y => x.finish ≤ y.start ∨ y.finish ≤ x.start)
      (run fuel (init cfg)).events :=
  (run_pairwise cfg fuel).imp (fun h => Or.inr h)

/-- C7: lastRequestTime is mutated only by the worker and only at a
successful completion, where it becomes the completion instant; a
throttled (429) or terminally failed call leaves it unchanged, and so
does every proxyRequest arrival (cache hit or enqueue) and every
invocation of the processQueue guard.  Concretely, after the cfgC3 run
(failure at 2100, success at 2200) it is 2200, and after the cfgC4 run
(429 at 2100, successes at 3200 and 4300) it is 4300. -/
theorem c7_theorem :
    (∀ (s : St) (item : Item) (rest : List Item),
      s.queue = item :: rest → s.arrivals = [] →
      ((isSuccB (s.oracle s.callIdx) = false →
        (cycle s).lastRequestTime = s.lastRequestTime) ∧
       (∀ d, s.oracle s.callIdx = .success d →
        (cycle s).lastRequestTime = s.time + waitTime s + s.durations s.callIdx))) ∧
    (∀ (a : Arrival) (s : St), (handleArrival a s).lastRequestTime = s.lastRequestTime) ∧
    (∀ s : St, (processQueueEntry s).lastRequestTime = s.lastRequestTime) ∧
    (run 20 (init cfgC3)).lastRequestTime = 2200 ∧
    (run 25 (init cfgC4)).lastRequestTime = 4300 := by
  refine ⟨?_, handleArrival_lrt, ?_, by decide, by decide⟩
  · intro s item rest hq ha
    constructor
    · intro hns
      rw [cycle_eq_of_no_arrivals s item rest hq ha]
      rcases hr : s.oracle s.callIdx with d | st | _
      · rw [hr] at hns
        simp [isSuccB] at hns
      · by_cases h429 : st = 429
        · subst h429
          rw [completeCall_thr_eq]
        · rw [completeCall_err_eq _ _ _ _ _ h429]
      · rw [completeCall_net_eq]
    · intro d hr
      rw [cycle_eq_of_no_arrivals s item rest hq ha, hr, completeCall_success_eq]
  · intro s
    unfold processQueueEntry
    split
    · rfl
    · rfl

/-- C8: invoking processQueue while a loop instance is already running
(isProcessingQueue = true) returns immediately with the state unchanged —
nothing is dequeued, no call is issued, no flag is touched; and when the
running loop finds the queue drained it exits by clearing the flag and
doing nothing else, so a second loop instance can only start after the
first has exited.  The two closed conjuncts instantiate this at a
concrete running state and at a concrete drained state. -/
theorem c8_theorem :
    (∀ s : St, s.isProcessingQueue = true → processQueueEntry s = s) ∧
    (∀ s : St, s.isProcessingQueue = true → s.queue = [] →
      step s = { s with isProcessingQueue := false }) ∧
    processQueueEntry sC8 = sC8 ∧
    step sC8e = { sC8e with isProcessingQueue := false } := by
  refine ⟨?_, ?_, rfl, rfl⟩
  · intro s h
    unfold processQueueEntry
    rw [h]
    simp
  · intro s h hq
    unfold step
    rw [h, hq]
    simp

/-- C9 counterexample.  A concrete /api/watch/5/1 request (Jikan returns
the title Naruto, the Gogoanime search finds the id naruto, the source
lookup succeeds) issues three upstream requests — the Jikan metadata
lookup, the Gogoanime search and the episode-source lookup — all as
direct axios calls outside the proxy core; had every upstream request of
the handler been issued through the proxy core's fetch path, this direct
list would be empty. -/
theorem c9_counterexample :
    (watchHandler "5" "1" oW).1 =
      [⟨Api.jikan, "/anime/5/full"⟩, ⟨Api.gogo, "/search/naruto"⟩,
       ⟨Api.gogo, "/watch/naruto-episode-1"⟩] ∧
    ¬ (watchHandler "5" "1" oW).1 = [] :=
  ⟨by decide, by decide⟩

/-- C9 (amended): none of the upstream requests made on behalf of
episode-source resolution goes through the proxy core; the watch and
episodes handlers always begin with a direct Jikan metadata request
(even though the proxied route /api/info/:id serves the same endpoint
through the core), and on the happy path the watch handler issues exactly
the three direct calls: metadata lookup, search for the cleaned
URI-encoded title, and the episode-source lookup. -/
theorem c9_amended :
    (∀ (id ep : String) (o : WatchOracle),
      (watchHandler id ep o).1.head? =
        some ⟨Api.jikan, "/anime/" ++ id ++ "/full"⟩) ∧
    (∀ (id ep title gid : String) (ids srcs : List String) (b : Bool),
      srcs ≠ [] →
      (watchHandler id ep ⟨some title, some (gid :: ids), some srcs, b⟩).1 =
        [⟨Api.jikan, "/anime/" ++ id ++ "/full"⟩,
         ⟨Api.gogo, "/search/" ++ encodeURIComponent (cleanTitle title)⟩,
         ⟨Api.gogo, "/watch/" ++ (gid ++ "-episode-" ++ toString (episodeOf ep))⟩]) ∧
    (∀ (id : String) (o : WatchOracle),
      (episodesHandler id o).1.head? =
        some ⟨Api.jikan, "/anime/" ++ id ++ "/full"⟩) := by
  refine ⟨?_, ?_, ?_⟩
  · intro id ep o
    obtain ⟨t, ht⟩ := watchHandler_calls_head id ep o
    rw [ht]
    rfl
  · intro id ep title gid ids srcs b hsrcs
    rcases srcs with _ | ⟨x, xs⟩
    · exact absurd rfl hsrcs
    · simp [watchHandler, getGogoanimeInfo]
  · intro id o
    obtain ⟨t, ht⟩ := episodesHandler_calls_head id o
    rw [ht]
    rfl

/-- C10: once a request is queued, dequeuing it always issues its
upstream call — the worker never re-checks the cache.  Even when the
queued item's key has a cache entry that is fresh at the very instant the
item is dequeued (the stated hypotheses), the iteration still logs a new
upstream call for that key, starting at the dequeue instant. -/
theorem c10_theorem (s : St) (item : Item) (rest : List Item) (e : CacheEntry)
    (hq : s.queue = item :: rest) (ha : s.arrivals = [])
    (hc : cacheGet s.cache item.endpoint = some e)
    (hf : s.time + waitTime s - e.timestamp < CACHE_DURATION) :
    (cycle s).events.length = s.events.length + 1 ∧
    (cycle s).events.head?.map Ev.endpoint = some item.endpoint ∧
    (cycle s).events.head?.map Ev.start = some (s.time + waitTime s) := by
  rw [cycle_eq_of_no_arrivals s item rest hq ha, completeCall_events]
  exact ⟨rfl, rfl, rfl⟩

/-- C10 witness: a concrete worker state whose queued key /a has a cache
entry written at 4000 that is still fresh at the dequeue instant 5000;
the call is issued anyway. -/
theorem c10_witness :
    (cycle sC10).events.length = 1 ∧
    (cycle sC10).events.head?.map Ev.endpoint = some "/a" ∧
    (cycle sC10).events.head?.map Ev.start = some 5000 :=
  c10_theorem sC10 ⟨"/a", 6⟩ [] ⟨42, 4000⟩ (by decide) (by decide) (by decide) (by decide)

end Proxy
